import Mathlib

/-!
Verification of the field-state reconciliation engine in
`src/packages/core/src/models/field.ts` against its natural-language
specification.  The engine is shallowly embedded: JavaScript runtime values
become the inductive type `JSVal`, the field-state snapshot becomes the
structure `FieldState`, the five producer stages become pure functions over
`FieldState` together with an explicit dirty map and an explicit log of
collaborator calls.  Helpers that live in the out-of-src `@formily/shared`
package (`isValid`, `toArr`, `isEqual`, `isEmpty`) are modelled from the
specification, as is the commit driver of the out-of-src `shared/model.ts`.
-/

namespace Formily

/-- A JavaScript runtime value, restricted to the shapes the engine
manipulates: `undefined`, `null`, booleans, numbers, strings, arrays and
plain objects (as insertion-ordered key/value lists). -/
inductive JSVal where
  | undefined : JSVal
  | null : JSVal
  | bool (b : Bool) : JSVal
  | num (n : Int) : JSVal
  | str (s : String) : JSVal
  | arr (xs : List JSVal) : JSVal
  | obj (kvs : List (String × JSVal)) : JSVal
deriving Repr

mutual

/-- Structural equality test on `JSVal` (decision procedure backing the
`DecidableEq` instance below). -/
def JSVal.beq : JSVal → JSVal → Bool
  | .undefined, .undefined => true
  | .null, .null => true
  | .bool a, .bool b => a == b
  | .num a, .num b => a == b
  | .str a, .str b => a == b
  | .arr xs, .arr ys => JSVal.beqList xs ys
  | .obj xs, .obj ys => JSVal.beqKVList xs ys
  | _, _ => false

/-- Structural equality test on lists of `JSVal`. -/
def JSVal.beqList : List JSVal → List JSVal → Bool
  | [], [] => true
  | x :: xs, y :: ys => JSVal.beq x y && JSVal.beqList xs ys
  | _, _ => false

/-- Structural equality test on key/value lists. -/
def JSVal.beqKVList : List (String × JSVal) → List (String × JSVal) → Bool
  | [], [] => true
  | (k₁, v₁) :: xs, (k₂, v₂) :: ys =>
      k₁ == k₂ && JSVal.beq v₁ v₂ && JSVal.beqKVList xs ys
  | _, _ => false

end

mutual

theorem JSVal.beq_iff : ∀ a b : JSVal, JSVal.beq a b = true ↔ a = b
  | .undefined, b => by cases b <;> simp [JSVal.beq]
  | .null, b => by cases b <;> simp [JSVal.beq]
  | .bool a, b => by cases b <;> simp [JSVal.beq]
  | .num a, b => by cases b <;> simp [JSVal.beq]
  | .str a, b => by cases b <;> simp [JSVal.beq]
  | .arr xs, b => by
      cases b <;> simp [JSVal.beq]
      exact JSVal.beqList_iff xs _
  | .obj xs, b => by
      cases b <;> simp [JSVal.beq]
      exact JSVal.beqKVList_iff xs _

theorem JSVal.beqList_iff : ∀ xs ys : List JSVal, JSVal.beqList xs ys = true ↔ xs = ys
  | [], ys => by cases ys <;> simp [JSVal.beqList]
  | x :: xs, ys => by
      cases ys with
      | nil => simp [JSVal.beqList]
      | cons y ys =>
          simp [JSVal.beqList, JSVal.beq_iff x y, JSVal.beqList_iff xs ys]

theorem JSVal.beqKVList_iff :
    ∀ xs ys : List (String × JSVal), JSVal.beqKVList xs ys = true ↔ xs = ys
  | [], ys => by cases ys <;> simp [JSVal.beqKVList]
  | (k₁, v₁) :: xs, ys => by
      cases ys with
      | nil => simp [JSVal.beqKVList]
      | cons y ys =>
          obtain ⟨k₂, v₂⟩ := y
          simp [JSVal.beqKVList, JSVal.beq_iff v₁ v₂, JSVal.beqKVList_iff xs ys,
            and_assoc]

end

instance : DecidableEq JSVal := fun a b => decidable_of_iff _ (JSVal.beq_iff a b)

/-- Modelled from the spec (§7): the shared `isValid` helper; a value is
valid unless it is `undefined` or `null` ("comparisons against unset values
treat unset as a distinct state"). -/
def isValid : JSVal → Bool
  | .undefined => false
  | .null => false
  | _ => true

/-- JavaScript truthiness of a value, used by `normalizeMessages`
(`filter(v => !!v)`, field.ts line 19). -/
def truthy : JSVal → Bool
  | .undefined => false
  | .null => false
  | .bool b => b
  | .num n => decide (n ≠ 0)
  | .str s => !s.isEmpty
  | .arr _ => true
  | .obj _ => true

/-- Modelled from the spec (§7): the shared `toArr` coercion — an array is
kept, an unset value becomes the empty sequence, any other value becomes a
singleton sequence ("non-array values passed to array-aware operations are
coerced to empty/singleton sequences"). -/
def toArr : JSVal → List JSVal
  | .arr xs => xs
  | .undefined => []
  | .null => []
  | v => [v]

/-- Modelled from the spec (§4.1): the shared `isEqual` structural (deep)
equality. -/
def isEqual (a b : JSVal) : Bool := decide (a = b)

/-- Modelled from the spec (§4.4): the shared `isEmpty` helper — empty
string, empty array, empty object and unset values are empty. -/
def isEmpty : JSVal → Bool
  | .undefined => true
  | .null => true
  | .str s => s.isEmpty
  | .arr xs => xs.isEmpty
  | .obj kvs => kvs.isEmpty
  | .bool _ => false
  | .num _ => false

/-- JavaScript read `xs[i]` on an array: `undefined` beyond the end. -/
def jsIndex (xs : List JSVal) (i : Nat) : JSVal := (xs.get? i).getD .undefined

/-- JavaScript write `xs[0] = v` on an array: writing slot 0 creates the
slot when the array is empty, otherwise replaces the head. -/
def jsSetIndex0 (xs : List JSVal) (v : JSVal) : List JSVal := v :: xs.drop 1

@[simp] theorem jsIndex_setIndex0 (xs : List JSVal) (v : JSVal) :
    jsIndex (jsSetIndex0 xs v) 0 = v := rfl

/-- Embeds `getOriginalValue` (field.ts lines 32-35).  The immer `original`
unwrapping of a draft proxy is the identity in a value semantics. -/
def getOriginalValue (v : JSVal) : JSVal := v

/-- A validation rule entry: a plain JavaScript object, embedded as an
insertion-ordered key/value list (keys are unique in a JavaScript object). -/
abbrev RuleEntry : Type := List (String × JSVal)

/-- JavaScript property read `o[k]` on a plain object: the stored value, or
`undefined` when the key is absent. -/
def objGet (o : RuleEntry) (k : String) : JSVal :=
  match o with
  | [] => .undefined
  | (k₂, v) :: rest => if k₂ = k then v else objGet rest k

/-- JavaScript `Object.keys(o).length`. -/
def objKeyCount (o : RuleEntry) : Nat := List.length o

/-- JavaScript object spread with one override, `\x7b...o, k: v\x7d`: the key
keeps its position when already present and is appended otherwise. -/
def objSet (o : RuleEntry) (k : String) (v : JSVal) : RuleEntry :=
  if o.any (fun kv => kv.1 = k) then
    o.map (fun kv => if kv.1 = k then (kv.1, v) else kv)
  else o ++ [(k, v)]

/-- Embeds `ARRAY_UNIQUE_TAG` (field.ts lines 37-39); the global symbol is
embedded as a distinguished object key. -/
def ARRAY_UNIQUE_TAG : String := "@@__YOU_CAN_NEVER_REMOVE_ARRAY_UNIQUE_TAG__@@"

/-- One step of `tagArrayList` (field.ts lines 48-57): object items receive
the `name.index` identity tag, kept when already present (unless forced);
non-object items pass through. -/
def tagItem (name : String) (force : Bool) (index : Nat) : JSVal → JSVal
  | .obj kvs =>
      .obj (objSet kvs ARRAY_UNIQUE_TAG
        (if force then .str (name ++ "." ++ toString index)
         else if truthy (objGet kvs ARRAY_UNIQUE_TAG) then objGet kvs ARRAY_UNIQUE_TAG
         else .str (name ++ "." ++ toString index)))
  | v => v

/-- Embeds `tagArrayList` (field.ts lines 48-57), indexed traversal. -/
def tagArrayListFrom (name : String) (force : Bool) : Nat → List JSVal → List JSVal
  | _, [] => []
  | i, item :: rest => tagItem name force i item :: tagArrayListFrom name force (i + 1) rest

/-- Embeds `tagArrayList` (field.ts lines 48-57). -/
def tagArrayList (current : List JSVal) (name : String) (force : Bool) : List JSVal :=
  tagArrayListFrom name force 0 current

/-- Case-insensitive substring test used by `isArrayList`
(field.ts lines 312-314, regex `/array/gi` on the data type). -/
def strContainsArray : List Char → Bool
  | [] => "array".toList.isPrefixOf []
  | c :: rest => "array".toList.isPrefixOf (c :: rest) || strContainsArray rest

/-- Embeds `isArrayList` (field.ts lines 312-314), lowercasing character by
character. -/
def isArrayList (dataType : String) : Bool :=
  strContainsArray (dataType.data.map Char.toLower)

/-- The `formEditable` source: absent, a plain value, or a callable taking
the field name (design note in spec §9: a tagged variant
Constant/Computed). -/
inductive FnOrVal where
  | val (v : JSVal) : FnOrVal
  | fn (f : String → JSVal) : FnOrVal

/-- `isValid` lifted to a possibly-callable source: functions are valid. -/
def FnOrVal.isValidF : FnOrVal → Bool
  | .val v => isValid v
  | .fn _ => true

/-- The field-state snapshot (field.ts lines 71-106).  Fields that the
source only ever treats as booleans are typed `Bool`; fields that flow
through untyped JavaScript reads keep the full `JSVal` type.  The message
channels, `values` and `rules` are typed as the sequences the data model
(spec §3) prescribes. -/
structure FieldState where
  name : String
  path : String
  dataType : String
  initialized : Bool
  pristine : Bool
  valid : Bool
  modified : Bool
  touched : Bool
  active : Bool
  visited : Bool
  invalid : Bool
  visible : Bool
  display : Bool
  loading : Bool
  validating : JSVal
  errors : List JSVal
  values : List JSVal
  ruleErrors : List JSVal
  ruleWarnings : List JSVal
  effectErrors : List JSVal
  warnings : List JSVal
  effectWarnings : List JSVal
  editable : JSVal
  selfEditable : JSVal
  formEditable : FnOrVal
  value : JSVal
  visibleCacheValue : JSVal
  initialValue : JSVal
  rules : List RuleEntry
  required : JSVal
  mounted : Bool
  unmounted : Bool
  unmountRemoveValue : Bool
  props : JSVal

/-- The freshly constructed state: the literal of field.ts lines 71-106
with `name`, `path` and `dataType` filled in by the constructor
(lines 108-115). -/
def initialFieldState (name path dataType : String) : FieldState where
  name := name
  path := path
  dataType := dataType
  initialized := false
  pristine := true
  valid := true
  modified := false
  touched := false
  active := false
  visited := false
  invalid := false
  visible := true
  display := true
  loading := false
  validating := .bool false
  errors := []
  values := []
  ruleErrors := []
  ruleWarnings := []
  effectErrors := []
  warnings := []
  effectWarnings := []
  editable := .bool true
  selfEditable := .undefined
  formEditable := .val .undefined
  value := .undefined
  visibleCacheValue := .undefined
  initialValue := .undefined
  rules := []
  required := .bool false
  mounted := false
  unmounted := false
  unmountRemoveValue := true
  props := .obj []

/-- The dirty map (`FieldStateDirtyMap`): one flag per mutable property the
producer pipeline consults (spec §4.1). -/
structure DirtyMap where
  initialized : Bool := false
  value : Bool := false
  values : Bool := false
  initialValue : Bool := false
  visible : Bool := false
  display : Bool := false
  mounted : Bool := false
  unmounted : Bool := false
  unmountRemoveValue : Bool := false
  visibleCacheValue : Bool := false
  editable : Bool := false
  selfEditable : Bool := false
  errors : Bool := false
  warnings : Bool := false
  effectErrors : Bool := false
  effectWarnings : Bool := false
  ruleErrors : Bool := false
  ruleWarnings : Bool := false
  rules : Bool := false
  required : Bool := false
  validating : Bool := false
  loading : Bool := false
  props : Bool := false

/-- The collaborator contract (spec §6): optional externally-sourced value
getters, and the remove-on-hide policy query.  An absent `needRemoveValue`
callback yields `undefined`, hence falsy, and is embedded as the constantly
false function. -/
structure FieldProps where
  getValueF : Option (String → JSVal) := none
  getInitialValueF : Option (String → JSVal) := none
  needRemoveValue : String → Bool := fun _ => false

/-- A call the engine issues to a collaborator callback, in issue order. -/
inductive CallEvent where
  | setValue (name : String) (v : JSVal) : CallEvent
  | setInitialValue (name : String) (v : JSVal) : CallEvent
  | needRemoveValue (path : String) : CallEvent
  | unControlledValueChanged : CallEvent
deriving DecidableEq, Repr

/-- Embeds `normalizeMessages` (field.ts line 19),
`toArr(messages).filter(v => !!v)`, on an already-sequenced channel. -/
def normalizeMessages (messages : List JSVal) : List JSVal := messages.filter truthy

/-- Embeds `produceErrorsAndWarnings` (field.ts lines 167-191).  The source
mutates the draft channel by channel in order, so the sequential overwrite
behaviour (a dirty `errors` feeds the `effectErrors` normalization that a
dirty `effectErrors` then renormalizes) is kept through the let chain;
`errors` and `warnings` are recomputed unconditionally at the end
(lines 189-190). -/
def produceErrorsAndWarnings (d : FieldState) (dr : DirtyMap) : FieldState :=
  let effectErrors₁ := if dr.errors then normalizeMessages d.errors else d.effectErrors
  let effectWarnings₁ := if dr.warnings then normalizeMessages d.warnings else d.effectWarnings
  let effectErrors₂ := if dr.effectErrors then normalizeMessages effectErrors₁ else effectErrors₁
  let effectWarnings₂ := if dr.effectWarnings then normalizeMessages effectWarnings₁ else effectWarnings₁
  let ruleErrors₁ := if dr.ruleErrors then normalizeMessages d.ruleErrors else d.ruleErrors
  let ruleWarnings₁ := if dr.ruleWarnings then normalizeMessages d.ruleWarnings else d.ruleWarnings
  { d with
    effectErrors := effectErrors₂
    effectWarnings := effectWarnings₂
    ruleErrors := ruleErrors₁
    ruleWarnings := ruleWarnings₁
    errors := ruleErrors₁ ++ effectErrors₂
    warnings := ruleWarnings₁ ++ effectWarnings₂ }

/-- Embeds `produceEditable` (field.ts lines 193-204): a dirty `editable`
snapshots `selfEditable` first, then the effective flag resolves
`selfEditable`, else `formEditable` (applied to the name when callable),
else `true`. -/
def produceEditable (d : FieldState) (dr : DirtyMap) : FieldState :=
  let selfEditable := if dr.editable then d.editable else d.selfEditable
  { d with
    selfEditable := selfEditable
    editable :=
      if isValid selfEditable then selfEditable
      else
        match d.formEditable with
        | .fn f => f d.name
        | .val v => if isValid v then v else .bool true }

/-- Embeds `produceValue` (field.ts lines 316-361).  Mutated `values` wins
over a simultaneously mutated `value` (the source overwrites `draft.value`
with `values[0]` first); the `initialized` transition adopts a valid
`initialValue` when the value is empty or unset; `setValue` and
`setInitialValue` are pushed to the store; `pristine` is recomputed by
structural equality whenever value or initial value changed. -/
def produceValue (d : FieldState) (dr : DirtyMap) : FieldState × List CallEvent :=
  let arrList := isArrayList d.dataType
  let values₁ :=
    if dr.values then
      (if arrList then
        jsSetIndex0 d.values (.arr (tagArrayList (toArr (jsIndex d.values 0)) d.name false))
      else d.values)
    else d.values
  let value₁ := if dr.values then jsIndex values₁ 0 else d.value
  let value₂ :=
    if dr.value then
      (if arrList then .arr (tagArrayList (toArr value₁) d.name false) else value₁)
    else value₁
  let values₂ := if dr.value then jsSetIndex0 values₁ value₂ else values₁
  let modified₁ := if dr.values || dr.value then true else d.modified
  let adopt := dr.initialized && (!(isValid value₂) || isEmpty value₂) && isValid d.initialValue
  let value₃ := if adopt then d.initialValue else value₂
  let values₃ := if adopt then jsSetIndex0 values₂ value₃ else values₂
  let valueChanged := dr.values || dr.value || adopt
  let valueOrInitialValueChanged := dr.values || dr.value || dr.initialValue || adopt
  let pristine₁ :=
    if valueOrInitialValueChanged then isEqual d.initialValue value₃ else d.pristine
  ({ d with values := values₃, value := value₃, modified := modified₁, pristine := pristine₁ },
   (if valueChanged then [CallEvent.setValue d.name (getOriginalValue value₃)] else []) ++
   (if dr.initialValue then
      [CallEvent.setInitialValue d.name (getOriginalValue d.initialValue)] else []))

/-- The force-clear condition of the side-effects stage
(field.ts lines 214-219): editability touched, or the field currently
invisible or unmounted. -/
def forceClearCond (d : FieldState) (dr : DirtyMap) : Bool :=
  dr.editable || dr.selfEditable || !d.visible || d.unmounted

/-- The mount/unmount synchronization (field.ts lines 228-238) on the
`(mounted, unmounted)` pair, keeping the sequential draft reads: lines 228
and 231 read the incoming `mounted`, lines 234 and 237 read the already
updated `unmounted`. -/
def syncMountedPair (mounted unmounted drMounted drUnmounted : Bool) : Bool × Bool :=
  let unmounted₁ := if mounted && drMounted then false else unmounted
  let unmounted₂ := if !mounted && drMounted then true else unmounted₁
  let mounted₁ := if unmounted₂ && drUnmounted then false else mounted
  let mounted₂ := if !unmounted₂ && drUnmounted then true else mounted₁
  (mounted₂, unmounted₂)

/-- The part of `produceSideEffects` that precedes the hide/show value
handling (field.ts lines 206-238): validating drives loading, the
force-clear of the four message channels (rule channels untouched), the
props reset, and the mount/unmount synchronization. -/
def sideEffectsPre (d : FieldState) (dr : DirtyMap) : FieldState :=
  let loading₁ :=
    if dr.validating then
      (if d.validating = .bool true then true
       else if d.validating = .bool false then false
       else d.loading)
    else d.loading
  let clear := forceClearCond d dr
  let sync := syncMountedPair d.mounted d.unmounted dr.mounted dr.unmounted
  { d with
    loading := loading₁
    errors := if clear then [] else d.errors
    effectErrors := if clear then [] else d.effectErrors
    warnings := if clear then [] else d.warnings
    effectWarnings := if clear then [] else d.effectWarnings
    props := if !(isValid d.props) then .obj [] else d.props
    mounted := sync.1
    unmounted := sync.2 }

/-- Whether the value-clearing ("hide") branch of the hide/show handling
fires (field.ts lines 246 and 274), evaluated on the draft as the
visibility block sees it: one of visible/mounted/unmounted dirty, `display`
on, and the policy-dependent hidden test — `visible === false ||
unmounted === true` under the remove-on-hide policy, plain
`visible === false` otherwise. -/
def hideBranchFired (d : FieldState) (dr : DirtyMap) (p : FieldProps) : Bool :=
  let outer := dr.visible || dr.mounted || dr.unmounted
  let removePolicy := outer && d.unmountRemoveValue && p.needRemoveValue d.path
  let hidden := if removePolicy then !d.visible || d.unmounted else !d.visible
  outer && d.display && hidden

/-- Whether the value-restoring ("show") branch of the hide/show handling
fires (field.ts lines 258-269 and 286-293), evaluated on the draft as the
visibility block sees it: the hidden test fails, the shown test holds, and
the current value is unset. -/
def showRestoreFired (d : FieldState) (dr : DirtyMap) (p : FieldProps) : Bool :=
  let outer := dr.visible || dr.mounted || dr.unmounted
  let removePolicy := outer && d.unmountRemoveValue && p.needRemoveValue d.path
  let hidden := if removePolicy then !d.visible || d.unmounted else !d.visible
  let shown := if removePolicy then d.visible || d.mounted || !d.unmounted else d.visible
  outer && d.display && !hidden && shown && !(isValid d.value)

/-- The hide/show value handling of `produceSideEffects`
(field.ts lines 240-297), translated to guarded updates.  `needRemoveValue`
is queried exactly when one of visible/mounted/unmounted is dirty and
`unmountRemoveValue` is on (the short-circuit of line 242).  The hide
branch caches the current value (three-way fallback, unless
`visibleCacheValue` was itself mutated this commit), clears `value` and
`values[0]`, and pushes `undefined`; the show branch restores an unset
value from `visibleCacheValue` and pushes it. -/
def visibilityStep (d : FieldState) (dr : DirtyMap) (p : FieldProps) :
    FieldState × List CallEvent :=
  let outer := dr.visible || dr.mounted || dr.unmounted
  let callNeed := outer && d.unmountRemoveValue
  let doHide := hideBranchFired d dr p
  let doRestore := showRestoreFired d dr p
  let cache :=
    if doHide && !dr.visibleCacheValue then
      (if isValid d.value then d.value
       else if isValid d.visibleCacheValue then d.visibleCacheValue
       else d.initialValue)
    else d.visibleCacheValue
  ({ d with
     visibleCacheValue := cache
     value := if doHide then .undefined else if doRestore then d.visibleCacheValue else d.value
     values := if doHide then jsSetIndex0 d.values .undefined else d.values },
   (if callNeed then [CallEvent.needRemoveValue d.path] else []) ++
   (if doHide then [CallEvent.setValue d.name .undefined] else []) ++
   (if doRestore then [CallEvent.setValue d.name (getOriginalValue d.visibleCacheValue)] else []))

/-- The closing recomputation of `produceSideEffects`
(field.ts lines 299-305): `invalid` mirrors non-empty `errors`. -/
def validStep (d : FieldState) : FieldState :=
  let inv := !d.errors.isEmpty
  { d with invalid := inv, valid := !inv }

/-- Embeds `produceSideEffects` (field.ts lines 206-306). -/
def produceSideEffects (d : FieldState) (dr : DirtyMap) (p : FieldProps) :
    FieldState × List CallEvent :=
  let d₁ := sideEffectsPre d dr
  let r := visibilityStep d₁ dr p
  (validStep r.1, r.2)

/-- The reducer callback of `getRulesFromRulesAndRequired`
(field.ts lines 372-398).  The early returns become an if chain; note that
when the key-count tests of lines 376 and 383 fail, control falls through
to the unconditional rewrite of lines 391-396, so every entry with a valid
`required` is rewritten. -/
def requiredRewriteStep (required : JSVal) (buf : List RuleEntry) (item : RuleEntry) :
    List RuleEntry :=
  if isValid (objGet item "required") && isValid (objGet item "message") &&
      objKeyCount item > 2 then
    buf ++ [objSet item "required" required]
  else if isValid (objGet item "required") && !(isValid (objGet item "message")) &&
      objKeyCount item > 1 then
    buf ++ [objSet item "required" required]
  else if isValid (objGet item "required") then
    buf ++ [objSet item "required" required]
  else buf ++ [item]

/-- Embeds `getRulesFromRulesAndRequired` (field.ts lines 363-411) for rule
sequences of plain objects, with the reducer factored out as
`requiredRewriteStep`. -/
def getRulesFromRulesAndRequired (rules : List RuleEntry) (required : JSVal) :
    List RuleEntry :=
  if isValid required then
    if rules.length ≠ 0 then
      if !(rules.any fun rule => isValid (objGet rule "required")) then
        rules ++ [[("required", required)]]
      else
        rules.foldl (requiredRewriteStep required) []
    else if required = .bool true then rules ++ [[("required", required)]]
    else rules
  else rules

/-- Embeds `getRequiredFromRulesAndRequired` (field.ts lines 413-420): the
first rule entry declaring a valid `required` wins, else the incoming
`required` passes through. -/
def getRequiredFromRulesAndRequired (rules : List RuleEntry) (required : JSVal) : JSVal :=
  match rules with
  | [] => required
  | r :: rest =>
      if isValid (objGet r "required") then objGet r "required"
      else getRequiredFromRulesAndRequired rest required

/-- Embeds `produceRules` (field.ts lines 422-439).  The canonicalization
of line 423-425 is the identity on the typed `rules` sequence; the guard of
line 426 (`(dirtys.required && dirtys.rules) || dirtys.required`) is kept
verbatim. -/
def produceRules (d : FieldState) (dr : DirtyMap) : FieldState :=
  let required₁ :=
    if (dr.required && dr.rules) || dr.required then d.required
    else if dr.rules then getRequiredFromRulesAndRequired d.rules d.required
    else d.required
  let rules₁ :=
    if (dr.required && dr.rules) || dr.required then
      getRulesFromRulesAndRequired d.rules d.required
    else d.rules
  { d with rules := rules₁, required := required₁ }

/-- Embeds `produce` (field.ts lines 441-447): the five pipeline stages in
their fixed order, on the post-mutation draft together with the dirty map;
collaborator calls are collected in issue order. -/
def produce (d : FieldState) (dr : DirtyMap) (p : FieldProps) :
    FieldState × List CallEvent :=
  let d₁ := produceErrorsAndWarnings d dr
  let d₂ := produceEditable d₁ dr
  let r₃ := produceValue d₂ dr
  let r₄ := produceSideEffects r₃.1 dr p
  (produceRules r₄.1 dr, r₃.2 ++ r₄.2)

/-- A rule entry as stored at runtime, where a sequence slot may hold
`null`/`undefined` instead of an object. -/
abbrev RuleSlot : Type := Option RuleEntry

/-- Embeds `getRulesFromRulesAndRequired` (field.ts lines 363-411) with the
exception behaviour of the untyped source made explicit: the guard of
line 369 (`rule && isValid(rule['required'])`) skips null entries, and
`Object.keys(item || \x7b\x7d)` of line 373 tolerates them, but the
`item.required` read of line 374 throws a TypeError on a null entry once
the reducer runs. -/
def getRulesFromRulesAndRequiredE (rules : List RuleSlot) (required : JSVal) :
    Except String (List RuleSlot) :=
  if isValid required then
    if rules.length ≠ 0 then
      if !(rules.any fun rule =>
            match rule with
            | some o => isValid (objGet o "required")
            | none => false) then
        Except.ok (rules ++ [some [("required", required)]])
      else
        rules.foldlM
          (fun (buf : List RuleSlot) (item : RuleSlot) =>
            match item with
            | none =>
                Except.error "TypeError: cannot read properties of null (reading required)"
            | some o =>
                if isValid (objGet o "required") && isValid (objGet o "message") &&
                    objKeyCount o > 2 then
                  Except.ok (buf ++ [some (objSet o "required" required)])
                else if isValid (objGet o "required") && !(isValid (objGet o "message")) &&
                    objKeyCount o > 1 then
                  Except.ok (buf ++ [some (objSet o "required" required)])
                else if isValid (objGet o "required") then
                  Except.ok (buf ++ [some (objSet o "required" required)])
                else Except.ok (buf ++ [item]))
          []
    else if required = .bool true then Except.ok (rules ++ [some [("required", required)]])
    else Except.ok rules
  else Except.ok rules

/-- Embeds `getRequiredFromRulesAndRequired` (field.ts lines 413-420) with
the exception behaviour made explicit: the `rules[i].required` read of
line 415 throws a TypeError when the scan reaches a null entry. -/
def getRequiredFromRulesAndRequiredE (rules : List RuleSlot) (required : JSVal) :
    Except String JSVal :=
  match rules with
  | [] => Except.ok required
  | none :: _ =>
      Except.error "TypeError: cannot read properties of null (reading required)"
  | some o :: rest =>
      if isValid (objGet o "required") then Except.ok (objGet o "required")
      else getRequiredFromRulesAndRequiredE rest required

/-- A partial mutation: each mutable property is either absent or carries
its proposed new value (spec §4.1). -/
structure Mutation where
  initialized : Option Bool := none
  value : Option JSVal := none
  values : Option (List JSVal) := none
  initialValue : Option JSVal := none
  visible : Option Bool := none
  display : Option Bool := none
  mounted : Option Bool := none
  unmounted : Option Bool := none
  unmountRemoveValue : Option Bool := none
  visibleCacheValue : Option JSVal := none
  editable : Option JSVal := none
  selfEditable : Option JSVal := none
  errors : Option (List JSVal) := none
  warnings : Option (List JSVal) := none
  effectErrors : Option (List JSVal) := none
  effectWarnings : Option (List JSVal) := none
  ruleErrors : Option (List JSVal) := none
  ruleWarnings : Option (List JSVal) := none
  rules : Option (List RuleEntry) := none
  required : Option JSVal := none
  validating : Option JSVal := none
  loading : Option Bool := none
  props : Option JSVal := none

/-- Embeds `dirtyCheck` (field.ts lines 134-141) at one property: in the
value semantics of this embedding the structural comparison of the
deep-inspect set and the strict inequality of the scalar properties
coincide with decidable equality. -/
def dirtyCheckAt {α : Type} [DecidableEq α] (current next : α) : Bool :=
  decide (current ≠ next)

/-- One property of the dirty map: absent from the mutation means never
dirty (spec §4.1), present means `dirtyCheck` against the current value. -/
def dirtyOf {α : Type} [DecidableEq α] (current : α) (next : Option α) : Bool :=
  match next with
  | none => false
  | some nv => dirtyCheckAt current nv

/-- Modelled from the spec: the dirty-tracking pre-pass of the commit
driver in the out-of-src `shared/model.ts` (spec §4.1 `diff`), built on the
in-src `dirtyCheck`. -/
def dirtyOfMutation (s : FieldState) (m : Mutation) : DirtyMap where
  initialized := dirtyOf s.initialized m.initialized
  value := dirtyOf s.value m.value
  values := dirtyOf s.values m.values
  initialValue := dirtyOf s.initialValue m.initialValue
  visible := dirtyOf s.visible m.visible
  display := dirtyOf s.display m.display
  mounted := dirtyOf s.mounted m.mounted
  unmounted := dirtyOf s.unmounted m.unmounted
  unmountRemoveValue := dirtyOf s.unmountRemoveValue m.unmountRemoveValue
  visibleCacheValue := dirtyOf s.visibleCacheValue m.visibleCacheValue
  editable := dirtyOf s.editable m.editable
  selfEditable := dirtyOf s.selfEditable m.selfEditable
  errors := dirtyOf s.errors m.errors
  warnings := dirtyOf s.warnings m.warnings
  effectErrors := dirtyOf s.effectErrors m.effectErrors
  effectWarnings := dirtyOf s.effectWarnings m.effectWarnings
  ruleErrors := dirtyOf s.ruleErrors m.ruleErrors
  ruleWarnings := dirtyOf s.ruleWarnings m.ruleWarnings
  rules := dirtyOf s.rules m.rules
  required := dirtyOf s.required m.required
  validating := dirtyOf s.validating m.validating
  loading := dirtyOf s.loading m.loading
  props := dirtyOf s.props m.props

/-- Modelled from the spec: applying a partial mutation to the working copy
before the pipeline runs (spec §5, commit against one working copy). -/
def applyMutation (s : FieldState) (m : Mutation) : FieldState :=
  { s with
    initialized := m.initialized.getD s.initialized
    value := m.value.getD s.value
    values := m.values.getD s.values
    initialValue := m.initialValue.getD s.initialValue
    visible := m.visible.getD s.visible
    display := m.display.getD s.display
    mounted := m.mounted.getD s.mounted
    unmounted := m.unmounted.getD s.unmounted
    unmountRemoveValue := m.unmountRemoveValue.getD s.unmountRemoveValue
    visibleCacheValue := m.visibleCacheValue.getD s.visibleCacheValue
    editable := m.editable.getD s.editable
    selfEditable := m.selfEditable.getD s.selfEditable
    errors := m.errors.getD s.errors
    warnings := m.warnings.getD s.warnings
    effectErrors := m.effectErrors.getD s.effectErrors
    effectWarnings := m.effectWarnings.getD s.effectWarnings
    ruleErrors := m.ruleErrors.getD s.ruleErrors
    ruleWarnings := m.ruleWarnings.getD s.ruleWarnings
    rules := m.rules.getD s.rules
    required := m.required.getD s.required
    validating := m.validating.getD s.validating
    loading := m.loading.getD s.loading
    props := m.props.getD s.props }

/-- Whether any property is marked dirty. -/
def anyDirty (dr : DirtyMap) : Bool :=
  dr.initialized || dr.value || dr.values || dr.initialValue || dr.visible ||
  dr.display || dr.mounted || dr.unmounted || dr.unmountRemoveValue ||
  dr.visibleCacheValue || dr.editable || dr.selfEditable || dr.errors ||
  dr.warnings || dr.effectErrors || dr.effectWarnings || dr.ruleErrors ||
  dr.ruleWarnings || dr.rules || dr.required || dr.validating || dr.loading ||
  dr.props

/-- Modelled from the spec: the commit driver of the out-of-src
`shared/model.ts` (spec §5) — compute the dirty map, and either install the
pipeline result atomically or, when no property is dirty, reuse the prior
snapshot unchanged with no collaborator calls. -/
def commit (s : FieldState) (p : FieldProps) (m : Mutation) :
    FieldState × List CallEvent :=
  let dr := dirtyOfMutation s m
  if anyDirty dr then produce (applyMutation s m) dr p else (s, [])

/-- The state container (field.ts lines 59-70): the canonical snapshot plus
the `lastCompareResults` memo of the lazy read, `undefined` before the
first read. -/
structure FieldModel where
  state : FieldState
  lastCompareResults : Option Bool := none

/-- A commit at the container level: the pipeline neither reads nor writes
`lastCompareResults`. -/
def commitModel (m : FieldModel) (p : FieldProps) (mtn : Mutation) :
    FieldModel × List CallEvent :=
  let r := commit m.state p mtn
  ({ m with state := r.1 }, r.2)

/-- Embeds `getValueFromProps` (field.ts lines 117-122). -/
def getValueFromProps (m : FieldModel) (p : FieldProps) : JSVal :=
  match p.getValueF with
  | some f => f m.state.name
  | none => m.state.value

/-- Embeds `getInitialValueFromProps` (field.ts lines 124-132). -/
def getInitialValueFromProps (m : FieldModel) (p : FieldProps) : JSVal :=
  match p.getInitialValueF with
  | some f =>
      if isValid m.state.initialValue then m.state.initialValue else f m.state.name
  | none => m.state.initialValue

/-- The externally sourced value as `getState` derives it
(field.ts lines 145-150): fetched from the collaborator and array-tagged
for array-list fields. -/
def derivedValue (m : FieldModel) (p : FieldProps) : JSVal :=
  let value := getValueFromProps m p
  if isArrayList m.state.dataType then
    .arr (tagArrayList (toArr value) m.state.name false)
  else value

/-- The externally sourced initial value as `getState` derives it
(field.ts lines 146-150). -/
def derivedInitialValue (m : FieldModel) (p : FieldProps) : JSVal :=
  let initialValue := getInitialValueFromProps m p
  if isArrayList m.state.dataType then
    .arr (tagArrayList (toArr initialValue) m.state.name false)
  else initialValue

/-- Embeds `getState` (field.ts lines 143-165): returns the snapshot with
the re-derived value, initial value and `values[0]`; when the derived value
diverges structurally from the cached one and the previous read did not
produce the same comparison result, the cached value is updated and
`unControlledValueChanged` is fired; `lastCompareResults` records the
comparison either way.  Yields the returned snapshot, the updated
container, and the calls issued. -/
def getState (m : FieldModel) (p : FieldProps) :
    FieldState × FieldModel × List CallEvent :=
  if !m.state.initialized then (m.state, m, [])
  else
    let value := derivedValue m p
    let initialValue := derivedInitialValue m p
    let snapshot :=
      { m.state with
        initialValue := initialValue
        value := value
        values := value :: m.state.values.drop 1 }
    let compareResults := isEqual m.state.value value
    let fire := !compareResults && !(m.lastCompareResults = some compareResults)
    (snapshot,
     { state := if fire then { m.state with value := value } else m.state
       lastCompareResults := some compareResults },
     if fire then [CallEvent.unControlledValueChanged] else [])

/-- The editability resolution as the specification words it (spec §4.2):
`selfEditable` if defined, else `formEditable` (invoked as a function of
the field name when callable, used directly when a boolean), else `true`.
Stated from the spec for comparison against the pipeline. -/
def editableResolutionSpec (selfEditable : JSVal) (formEditable : FnOrVal)
    (name : String) : JSVal :=
  if isValid selfEditable then selfEditable
  else
    match formEditable with
    | .fn f => f name
    | .val v => if isValid v then v else .bool true

/-! ### Helper lemmas

Projection lemmas through the pipeline (the stages are single record
updates, so most are definitional) and the per-stage workhorses used by the
claim theorems. -/

theorem produce_errors_eq (d : FieldState) (dr : DirtyMap) (p : FieldProps) :
    (produce d dr p).1.errors =
      (if forceClearCond d dr then [] else (produceErrorsAndWarnings d dr).errors) := rfl

theorem produce_warnings_eq (d : FieldState) (dr : DirtyMap) (p : FieldProps) :
    (produce d dr p).1.warnings =
      (if forceClearCond d dr then [] else (produceErrorsAndWarnings d dr).warnings) := rfl

theorem produce_effectErrors_eq (d : FieldState) (dr : DirtyMap) (p : FieldProps) :
    (produce d dr p).1.effectErrors =
      (if forceClearCond d dr then [] else (produceErrorsAndWarnings d dr).effectErrors) := rfl

theorem produce_effectWarnings_eq (d : FieldState) (dr : DirtyMap) (p : FieldProps) :
    (produce d dr p).1.effectWarnings =
      (if forceClearCond d dr then []
       else (produceErrorsAndWarnings d dr).effectWarnings) := rfl

theorem produce_ruleErrors_eq (d : FieldState) (dr : DirtyMap) (p : FieldProps) :
    (produce d dr p).1.ruleErrors = (produceErrorsAndWarnings d dr).ruleErrors := rfl

theorem produce_ruleWarnings_eq (d : FieldState) (dr : DirtyMap) (p : FieldProps) :
    (produce d dr p).1.ruleWarnings = (produceErrorsAndWarnings d dr).ruleWarnings := rfl

theorem produceErrorsAndWarnings_errors_split (d : FieldState) (dr : DirtyMap) :
    (produceErrorsAndWarnings d dr).errors =
      (produceErrorsAndWarnings d dr).ruleErrors ++
        (produceErrorsAndWarnings d dr).effectErrors := rfl

theorem produceErrorsAndWarnings_warnings_split (d : FieldState) (dr : DirtyMap) :
    (produceErrorsAndWarnings d dr).warnings =
      (produceErrorsAndWarnings d dr).ruleWarnings ++
        (produceErrorsAndWarnings d dr).effectWarnings := rfl

/-- The mount/unmount synchronization yields complementary flags whenever
one of the two was dirty. -/
theorem syncMountedPair_complement :
    ∀ m u dm du : Bool, (dm || du) = true →
      (syncMountedPair m u dm du).1 = !(syncMountedPair m u dm du).2 := by decide

/-- After the value stage, `value` and `values[0]` agree, provided they
agreed before or value/values was dirty. -/
theorem produceValue_value_values (d : FieldState) (dr : DirtyMap)
    (h : d.value = jsIndex d.values 0 ∨ dr.value = true ∨ dr.values = true) :
    (produceValue d dr).1.value = jsIndex (produceValue d dr).1.values 0 := by
  unfold produceValue
  by_cases hvs : dr.values <;> by_cases hv : dr.value <;>
    simp only [hvs, hv, Bool.true_or, Bool.false_or, Bool.or_true, ite_true, ite_false,
      Bool.false_eq_true, or_false, or_true] <;>
    (try split) <;> (try split) <;>
    simp_all [jsIndex, jsSetIndex0]

/-- The visibility block preserves the `value = values[0]` agreement as
long as its restore branch does not fire (the hide branch re-establishes
the agreement at `undefined`). -/
theorem visibilityStep_value_values (d : FieldState) (dr : DirtyMap) (p : FieldProps)
    (hres : showRestoreFired d dr p = false)
    (h : d.value = jsIndex d.values 0) :
    (visibilityStep d dr p).1.value = jsIndex (visibilityStep d dr p).1.values 0 := by
  unfold visibilityStep
  by_cases hh : hideBranchFired d dr p <;> simp_all [jsIndex, jsSetIndex0]

theorem produceSideEffects_cache_eq (d : FieldState) (dr : DirtyMap) (p : FieldProps) :
    (produceSideEffects d dr p).1.visibleCacheValue =
      (if hideBranchFired (sideEffectsPre d dr) dr p && !dr.visibleCacheValue then
        (if isValid d.value then d.value
         else if isValid d.visibleCacheValue then d.visibleCacheValue
         else d.initialValue)
       else d.visibleCacheValue) := rfl

/-- The reducer of the rules rewrite always appends exactly one entry: the
rewritten entry when `required` is validly declared, the original entry
otherwise. -/
theorem requiredRewriteStep_eq (required : JSVal) (buf : List RuleEntry)
    (item : RuleEntry) :
    requiredRewriteStep required buf item =
      buf ++ [if isValid (objGet item "required") then objSet item "required" required
              else item] := by
  unfold requiredRewriteStep
  by_cases h1 : isValid (objGet item "required") <;> simp [h1]

theorem foldl_requiredRewriteStep (required : JSVal) :
    ∀ (l : List RuleEntry) (acc : List RuleEntry),
      l.foldl (requiredRewriteStep required) acc =
        acc ++ l.map (fun item =>
          if isValid (objGet item "required") then objSet item "required" required
          else item) := by
  intro l
  induction l with
  | nil => intro acc; simp
  | cons x xs ih =>
      intro acc
      simp [List.foldl_cons, requiredRewriteStep_eq, ih]

/-! ### Concrete fixtures used by the closed claim theorems -/

/-- A hidden field whose value was cleared with `5` cached for
restoration. -/
def hiddenCachedFieldState : FieldState :=
  { initialFieldState "f" "f" "any" with
    initialized := true, visible := false, value := .undefined, values := [.undefined],
    visibleCacheValue := .num 5 }

/-- A visible, displayed field currently holding the value `5`. -/
def shownValuedFieldState : FieldState :=
  { initialFieldState "f" "f" "any" with
    initialized := true, value := .num 5, values := [.num 5] }

/-- A collaborator that reports every path as value-removable. -/
def removeAllProps : FieldProps := { needRemoveValue := fun _ => true }

/-- A field carrying one rule-origin error message. -/
def ruleErrorFieldState : FieldState :=
  { initialFieldState "f" "f" "any" with
    initialized := true, ruleErrors := [.str "e"] }

/-- A field whose mutation just wrote the value `1` (value marked dirty). -/
def dirtyValueFieldState : FieldState :=
  { initialFieldState "f" "f" "any" with
    initialized := true, value := .num 1, values := [.num 1] }

/-- A never-valued field about to be hidden, with initial value `7`. -/
def aboutToHideFieldState : FieldState :=
  { initialFieldState "f" "f" "any" with
    initialized := true, visible := false, initialValue := .num 7 }

/-- A container caching the value `1`. -/
def externalDriftModel : FieldModel :=
  { state :=
      { initialFieldState "f" "f" "any" with
        initialized := true, value := .num 1, values := [.num 1] } }

/-- A collaborator whose external store holds the value `2`. -/
def externalDriftProps : FieldProps := { getValueF := some fun _ => .num 2 }

/-- The container after the first (firing) read on `externalDriftModel`. -/
def externalDriftModelRead : FieldModel :=
  (getState externalDriftModel externalDriftProps).2.1

/-- The container after the first read followed by a commit of value `3`,
which leaves `lastCompareResults` at the diverged result. -/
def externalDriftModelCommitted : FieldModel :=
  (commitModel externalDriftModelRead externalDriftProps { value := some (.num 3) }).1

/-! ### Claim theorems -/

/-- C1, counterexample: the invariant `value === values[0]` does not
survive every commit.  Committing `\x7bvisible: true\x7d` on a hidden field whose
cleared value is cached as `5` takes the show-restore branch, which writes
`value` from `visibleCacheValue` but leaves `values[0]` at `undefined`:
afterwards `value = 5` while `values[0] = undefined`. -/
theorem claim_C1_counterexample :
    (commit hiddenCachedFieldState {} { visible := some true }).1.value = .num 5 ∧
    jsIndex (commit hiddenCachedFieldState {} { visible := some true }).1.values 0 = .undefined ∧
    (commit hiddenCachedFieldState {} { visible := some true }).1.value ≠
      jsIndex (commit hiddenCachedFieldState {} { visible := some true }).1.values 0 := by
  decide

/-- C1, amended: after every commit, `value = values[0]` holds provided the
show-restore branch of the side-effects stage did not fire and the two
already agreed before the commit or value or values was marked dirty; the
restore branch writes only `value` (from `visibleCacheValue`), leaving
`values[0]` untouched. -/
theorem claim_C1_value_values_amended (d : FieldState) (dr : DirtyMap) (p : FieldProps)
    (h : d.value = jsIndex d.values 0 ∨ dr.value = true ∨ dr.values = true)
    (hres : showRestoreFired
        (sideEffectsPre
          (produceValue (produceEditable (produceErrorsAndWarnings d dr) dr) dr).1 dr)
        dr p = false) :
    (produce d dr p).1.value = jsIndex (produce d dr p).1.values 0 := by
  have hmid :
      (produceValue (produceEditable (produceErrorsAndWarnings d dr) dr) dr).1.value =
        jsIndex
          (produceValue (produceEditable (produceErrorsAndWarnings d dr) dr) dr).1.values
          0 :=
    produceValue_value_values _ _ h
  exact visibilityStep_value_values _ _ _ hres hmid

/-- C1, witness for the amended theorem: a commit marking `value` dirty
with no restore firing keeps `value = values[0]`. -/
theorem claim_C1_value_values_amended_witness :
    (({ value := true } : DirtyMap).value = true ∧
      showRestoreFired
        (sideEffectsPre
          (produceValue
            (produceEditable
              (produceErrorsAndWarnings dirtyValueFieldState { value := true })
              { value := true })
            { value := true }).1
          { value := true })
        { value := true } {} = false) ∧
    (produce dirtyValueFieldState { value := true } {}).1.value =
      jsIndex (produce dirtyValueFieldState { value := true } {}).1.values 0 :=
  ⟨⟨rfl, by decide⟩,
    claim_C1_value_values_amended _ _ _ (Or.inr (Or.inl rfl)) (by decide)⟩

/-- C2, counterexample: an entry pairing `required` with a `message` and
carrying exactly 2 keys is still rewritten when `required` is committed —
the key-count branches of the reducer fall through to an unconditional
rewrite — contradicting the claim that such an entry passes through
unchanged. -/
theorem claim_C2_counterexample :
    getRulesFromRulesAndRequired
        [[("required", JSVal.bool true), ("message", JSVal.str "x")]] (.bool false) =
      [[("required", JSVal.bool false), ("message", JSVal.str "x")]] ∧
    getRulesFromRulesAndRequired
        [[("required", JSVal.bool true), ("message", JSVal.str "x")]] (.bool false) ≠
      [[("required", JSVal.bool true), ("message", JSVal.str "x")]] := by
  decide

/-- C2, amended: when a commit marks `required` dirty (with a valid value)
and the rules sequence contains at least one entry declaring a valid
`required` key, the derived sequence rewrites every entry declaring a valid
`required` key to the new required value — regardless of its key count or
of a paired `message` — and passes all other entries through unchanged. -/
theorem claim_C2_required_rewrite_amended (rules : List RuleEntry) (required : JSVal)
    (hval : isValid required = true)
    (hdecl : rules.any (fun r => isValid (objGet r "required")) = true) :
    getRulesFromRulesAndRequired rules required =
      rules.map (fun item =>
        if isValid (objGet item "required") then objSet item "required" required
        else item) := by
  unfold getRulesFromRulesAndRequired
  have hne : rules.length ≠ 0 := by cases rules <;> simp_all
  simp [hval, hdecl, hne, foldl_requiredRewriteStep]

/-- C2, witness for the amended theorem: a 3-key entry with a message, and
an entry without `required`, rewritten and passed through respectively. -/
theorem claim_C2_required_rewrite_amended_witness :
    (isValid (JSVal.bool false) = true ∧
      ([[("required", JSVal.bool true), ("message", JSVal.str "x"), ("min", JSVal.num 1)],
        [("max", JSVal.num 2)]] : List RuleEntry).any
          (fun r => isValid (objGet r "required")) = true) ∧
    getRulesFromRulesAndRequired
        [[("required", JSVal.bool true), ("message", JSVal.str "x"), ("min", JSVal.num 1)],
         [("max", JSVal.num 2)]] (.bool false) =
      ([[("required", JSVal.bool true), ("message", JSVal.str "x"), ("min", JSVal.num 1)],
        [("max", JSVal.num 2)]] : List RuleEntry).map
          (fun item =>
            if isValid (objGet item "required") then objSet item "required" (.bool false)
            else item) :=
  ⟨⟨rfl, by decide⟩, claim_C2_required_rewrite_amended _ _ rfl (by decide)⟩

/-- C3: the commit pipeline is not exception-free.  When the rules sequence
holds a `null` entry, the rules/required synchronization throws a
TypeError: the reducer of `getRulesFromRulesAndRequired` reads
`item.required` on the null entry (reached here because another entry does
declare `required`), and `getRequiredFromRulesAndRequired` reads
`rules[i].required` on it during the scan. -/
theorem claim_C3_rules_null_entry_throws :
    getRulesFromRulesAndRequiredE [none, some [("required", JSVal.bool true)]]
        (.bool false) =
      Except.error "TypeError: cannot read properties of null (reading required)" ∧
    getRequiredFromRulesAndRequiredE [none] (.bool false) =
      Except.error "TypeError: cannot read properties of null (reading required)" :=
  ⟨rfl, rfl⟩

/-- C4: the hide/show round trip.  Starting from a displayed, visible field
with value `5`, committing `\x7bvisible: false\x7d` clears the value and caches
`5`, and committing `\x7bvisible: true\x7d` restores value `5` — under both the
visible-only policy and the remove-on-hide policy. -/
theorem claim_C4_hide_show_round_trip :
    ((commit shownValuedFieldState {} { visible := some false }).1.value = .undefined ∧
     (commit shownValuedFieldState {} { visible := some false }).1.visibleCacheValue =
       .num 5 ∧
     (commit (commit shownValuedFieldState {} { visible := some false }).1 {}
         { visible := some true }).1.value = .num 5) ∧
    ((commit shownValuedFieldState removeAllProps { visible := some false }).1.value =
       .undefined ∧
     (commit shownValuedFieldState removeAllProps
         { visible := some false }).1.visibleCacheValue = .num 5 ∧
     (commit (commit shownValuedFieldState removeAllProps { visible := some false }).1
         removeAllProps { visible := some true }).1.value = .num 5) := by
  decide

/-- C5, counterexample: a read that detects external drift does not always
update the cache and notify.  After a first diverging read (which fires)
and a commit of value `3`, the next read again finds the external value `2`
diverging from the cached `3`, yet issues no call and leaves the cached
value unchanged, because `lastCompareResults` already records a diverged
comparison. -/
theorem claim_C5_counterexample :
    (getState externalDriftModel externalDriftProps).2.2 =
      [CallEvent.unControlledValueChanged] ∧
    isEqual externalDriftModelCommitted.state.value
      (derivedValue externalDriftModelCommitted externalDriftProps) = false ∧
    (getState externalDriftModelCommitted externalDriftProps).2.2 = [] ∧
    (getState externalDriftModelCommitted externalDriftProps).2.1.state.value =
      externalDriftModelCommitted.state.value := by
  decide

/-- C5, amended: a read on an initialized field updates the cached value
and fires `unControlledValueChanged` exactly when the derived external
value diverges structurally from the cached value and the previous read
did not also record a diverged comparison (`lastCompareResults` is not
`false`); consecutive diverging reads are deduplicated. -/
theorem claim_C5_drift_notification_amended (m : FieldModel) (p : FieldProps) :
    ((getState m p).2.2 = [CallEvent.unControlledValueChanged] ↔
      (m.state.initialized = true ∧ isEqual m.state.value (derivedValue m p) = false ∧
        m.lastCompareResults ≠ some false)) ∧
    (getState m p).2.1.state.value =
      (if m.state.initialized = true ∧ isEqual m.state.value (derivedValue m p) = false ∧
          m.lastCompareResults ≠ some false
       then derivedValue m p else m.state.value) := by
  unfold getState
  by_cases hi : m.state.initialized <;>
    by_cases hc : isEqual m.state.value (derivedValue m p) <;>
      by_cases hl : m.lastCompareResults = some false <;>
        simp_all

/-- C6, counterexample: in the freshly constructed state both `mounted` and
`unmounted` are `false`, so they are not logical complements before the
first commit touching either. -/
theorem claim_C6_counterexample :
    (initialFieldState "f" "f" "any").mounted = false ∧
    (initialFieldState "f" "f" "any").unmounted = false ∧
    ¬((initialFieldState "f" "f" "any").mounted =
        !(initialFieldState "f" "f" "any").unmounted) := by
  decide

/-- C6, amended: `mounted = !unmounted` holds after every commit that marks
`mounted` or `unmounted` dirty — in particular committing
`\x7bmounted: true\x7d` forces `unmounted = false` and committing
`\x7bunmounted: true\x7d` forces `mounted = false` — but not in the freshly
constructed state, where both are `false`. -/
theorem claim_C6_mounted_complement_amended (d : FieldState) (dr : DirtyMap)
    (p : FieldProps) (h : (dr.mounted || dr.unmounted) = true) :
    (produce d dr p).1.mounted = !(produce d dr p).1.unmounted :=
  syncMountedPair_complement d.mounted d.unmounted dr.mounted dr.unmounted h

/-- C6, witness for the amended theorem: a commit marking `mounted` dirty
on the fresh state yields complementary flags. -/
theorem claim_C6_mounted_complement_amended_witness :
    ((({ mounted := true } : DirtyMap).mounted ||
        ({ mounted := true } : DirtyMap).unmounted) = true) ∧
    (produce (initialFieldState "f" "f" "any") { mounted := true } {}).1.mounted =
      !(produce (initialFieldState "f" "f" "any") { mounted := true } {}).1.unmounted :=
  ⟨rfl, claim_C6_mounted_complement_amended _ _ _ rfl⟩

/-- C7, counterexample: the invariant `errors = ruleErrors ++ effectErrors`
does not survive a force-clearing commit.  Committing
`\x7beditable: false\x7d` on a field carrying a rule error clears `errors`
and `effectErrors` but leaves `ruleErrors`, so afterwards `errors = []`
while `ruleErrors ++ effectErrors = ["e"]`. -/
theorem claim_C7_counterexample :
    (commit ruleErrorFieldState {} { editable := some (.bool false) }).1.errors = [] ∧
    (commit ruleErrorFieldState {} { editable := some (.bool false) }).1.ruleErrors =
      [.str "e"] ∧
    (commit ruleErrorFieldState {} { editable := some (.bool false) }).1.errors ≠
      (commit ruleErrorFieldState {} { editable := some (.bool false) }).1.ruleErrors ++
        (commit ruleErrorFieldState {} { editable := some (.bool false) }).1.effectErrors := by
  decide

/-- C7, amended: after a commit in which the side-effect force-clear does
not fire (editability untouched, field visible and not unmounted),
`errors = ruleErrors ++ effectErrors` and
`warnings = ruleWarnings ++ effectWarnings`; a force-clearing commit
instead empties `errors`, `warnings`, `effectErrors` and `effectWarnings`
while leaving the rule channels, so the concatenation invariant holds then
only when the rule channels are empty. -/
theorem claim_C7_messages_amended (d : FieldState) (dr : DirtyMap) (p : FieldProps) :
    if forceClearCond d dr = true then
      (produce d dr p).1.errors = [] ∧ (produce d dr p).1.warnings = [] ∧
      (produce d dr p).1.effectErrors = [] ∧ (produce d dr p).1.effectWarnings = []
    else
      (produce d dr p).1.errors =
        (produce d dr p).1.ruleErrors ++ (produce d dr p).1.effectErrors ∧
      (produce d dr p).1.warnings =
        (produce d dr p).1.ruleWarnings ++ (produce d dr p).1.effectWarnings := by
  by_cases h : forceClearCond d dr = true <;>
    simp [h, produce_errors_eq, produce_warnings_eq, produce_effectErrors_eq,
      produce_effectWarnings_eq, produce_ruleErrors_eq, produce_ruleWarnings_eq,
      produceErrorsAndWarnings_errors_split, produceErrorsAndWarnings_warnings_split]

/-- C8: after every commit the effective `editable` equals `selfEditable`
when defined, else `formEditable` (applied to the field name when callable,
used directly otherwise), else `true`; and a mutation touching `editable`
snapshots `selfEditable` from the incoming value first. -/
theorem claim_C8_editable_resolution (d : FieldState) (dr : DirtyMap) (p : FieldProps) :
    (produce d dr p).1.selfEditable =
      (if dr.editable then d.editable else d.selfEditable) ∧
    (produce d dr p).1.editable =
      editableResolutionSpec (produce d dr p).1.selfEditable d.formEditable d.name :=
  ⟨rfl, rfl⟩

/-- C9: a commit whose dirty map is entirely clean returns the prior
snapshot unchanged with no collaborator calls, and so does repeating it. -/
theorem claim_C9_empty_commit_noop (s : FieldState) (p : FieldProps) (m : Mutation)
    (h : anyDirty (dirtyOfMutation s m) = false) :
    commit s p m = (s, []) ∧ commit (commit s p m).1 p m = (s, []) := by
  have h1 : commit s p m = (s, []) := by unfold commit; simp [h]
  exact ⟨h1, by rw [h1]; exact h1⟩

/-- C9, witness: the literally empty mutation marks nothing dirty on the
fresh state, and committing it (twice) is a no-op issuing no calls. -/
theorem claim_C9_empty_commit_noop_witness :
    anyDirty (dirtyOfMutation (initialFieldState "f" "f" "any") {}) = false ∧
    (commit (initialFieldState "f" "f" "any") {} {} =
        (initialFieldState "f" "f" "any", []) ∧
      commit (commit (initialFieldState "f" "f" "any") {} {}).1 {} {} =
        (initialFieldState "f" "f" "any", [])) :=
  ⟨rfl, claim_C9_empty_commit_noop _ _ _ rfl⟩

/-- C10: when the hide branch of the side-effects stage fires and
`visibleCacheValue` was not itself marked dirty in the commit, the cached
value is chosen by the three-way fallback: the current value when set, else
the previously cached value when set, else the initial value. -/
theorem claim_C10_hide_cache_fallback (d : FieldState) (dr : DirtyMap) (p : FieldProps)
    (hfire : hideBranchFired (sideEffectsPre d dr) dr p = true)
    (hclean : dr.visibleCacheValue = false) :
    (produceSideEffects d dr p).1.visibleCacheValue =
      (if isValid d.value then d.value
       else if isValid d.visibleCacheValue then d.visibleCacheValue
       else d.initialValue) := by
  rw [produceSideEffects_cache_eq, hfire, hclean]
  simp

/-- C10, witness: hiding a never-valued field with initial value `7` caches
`7`. -/
theorem claim_C10_hide_cache_fallback_witness :
    (hideBranchFired (sideEffectsPre aboutToHideFieldState { visible := true })
        { visible := true } {} = true ∧
      ({ visible := true } : DirtyMap).visibleCacheValue = false) ∧
    (produceSideEffects aboutToHideFieldState { visible := true } {}).1.visibleCacheValue =
      (if isValid aboutToHideFieldState.value then aboutToHideFieldState.value
       else if isValid aboutToHideFieldState.visibleCacheValue then
         aboutToHideFieldState.visibleCacheValue
       else aboutToHideFieldState.initialValue) :=
  ⟨⟨by decide, rfl⟩, claim_C10_hide_cache_fallback _ _ _ (by decide) rfl⟩

end Formily
